import Mathlib

/-!
# Verification of the nonnon pet-planner server

Shallow embedding of the three JavaScript server variants found in the
repository (the hybrid `server.js` v2.0, the `noonnon-2.0.0` variant that
follows it in the same file, and the reduced variant in `src/unnamed/part_001`),
together with proofs settling the frozen claims about the specification.

Conventions:
* instants are epoch milliseconds (`Int`), exactly ECMAScript's time value;
* civil dates use the standard proleptic-Gregorian days-from-civil algorithm,
  which is what ECMAScript `Date` implements;
* the process runs with `TZ=Asia/Bangkok` (required by the ENV comment in every
  variant), a fixed UTC+7 zone with no DST, so the local-time accessors
  (`getDate`, `getFullYear`, ...) read the +07:00 civil clock;
* Firestore collections are lists of documents in default (document id /
  insertion) order; the `sessions` collection, keyed by user id, is a map
  `String → Option SessionDoc`;
* JavaScript falsiness of an optional string (`undefined`, `null`, `""`) is
  `jsTruthy = false`; the loosely-typed plan params distinguish an absent key
  (`undefined`), JSON `null` and a string via `JsVal`, because the Firestore
  client throws on a write containing an `undefined` value while `null` is
  storable — the throwing paths are modeled explicitly in the planner loop.
-/

/-! ## Civil-date arithmetic (ECMAScript `Date` internals) -/

/-- Days since 1970-01-01 of the civil date `y-m-d` (proleptic Gregorian).
`d` may lie outside `1..28/31`; the result is then the normalized day, which is
exactly the semantics ECMAScript `setDate` relies on. -/
def daysFromCivil (y m d : Int) : Int :=
  let y2 := if m <= 2 then y - 1 else y
  let era := (if y2 >= 0 then y2 else y2 - 399) / 400
  let yoe := y2 - era * 400
  let mp := (m + 9) % 12
  let doy := (153 * mp + 2) / 5 + d - 1
  let doe := yoe * 365 + yoe / 4 - yoe / 100 + doy
  era * 146097 + doe - 719468

/-- Civil date `(y, m, d)` of a day count since 1970-01-01. -/
def civilFromDays (z0 : Int) : Int × Int × Int :=
  let z := z0 + 719468
  let era := (if z >= 0 then z else z - 146096) / 146097
  let doe := z - era * 146097
  let yoe := (doe - doe / 1460 + doe / 36524 - doe / 146096) / 365
  let y := yoe + era * 400
  let doy := doe - (365 * yoe + yoe / 4 - yoe / 100)
  let mp := (5 * doy + 2) / 153
  let d := doy - (153 * mp + 2) / 5 + 1
  let m := mp + (if mp < 10 then 3 else -9)
  (if m <= 2 then y + 1 else y, m, d)

/-- One civil day in milliseconds. -/
def dayMs : Int := 86400000

/-- The fixed UTC+7 (Asia/Bangkok) offset in milliseconds. -/
def bkkMs : Int := 25200000

/-- Decimal digit character. -/
def digitChar (n : Int) : Char := Char.ofNat (48 + n.toNat % 10)

/-- Two-digit zero-padded rendering, as produced by
`String(x).padStart(2,'0')` and by `toISOString` for months and days. -/
def pad2 (n : Int) : String := String.mk [digitChar (n / 10), digitChar n]

/-- Four-digit rendering of a year in `1..9999`, as produced by `toISOString`
and by `getFullYear` for the dates this system handles. -/
def pad4 (n : Int) : String :=
  String.mk [digitChar (n / 1000), digitChar (n / 100), digitChar (n / 10), digitChar n]

/-- `"YYYY-MM-DD"` rendering of a civil triple. -/
def fmtYMD (c : Int × Int × Int) : String := pad4 c.1 ++ "-" ++ pad2 c.2.1 ++ "-" ++ pad2 c.2.2

/-- Digit value of a character, if it is a decimal digit. -/
def digitVal (c : Char) : Option Int :=
  if 48 <= c.toNat && c.toNat <= 57 then some ((c.toNat : Int) - 48) else none

/-- Parse a strict `"YYYY-MM-DD"` string into a civil triple, rejecting
malformed input (ECMAScript rejects malformed ISO strings as Invalid Date). -/
def parseYMD (s : String) : Option (Int × Int × Int) :=
  match s.data with
  | [y1, y2, y3, y4, '-', m1, m2, '-', d1, d2] =>
    match digitVal y1, digitVal y2, digitVal y3, digitVal y4,
          digitVal m1, digitVal m2, digitVal d1, digitVal d2 with
    | some a, some b, some c, some d, some e, some f, some g, some h =>
      let y := a * 1000 + b * 100 + c * 10 + d
      let m := e * 10 + f
      let dd := g * 10 + h
      if 1 <= m && m <= 12 && 1 <= dd && dd <= 31 then some (y, m, dd) else none
    | _, _, _, _, _, _, _, _ => none
  | _ => none

/-- Epoch milliseconds of `dateStr + "T00:00:00+07:00"`, i.e. midnight of the
given civil date on the fixed UTC+7 clock. -/
def parseBkkMidnightMs (s : String) : Option Int :=
  (parseYMD s).map fun c => daysFromCivil c.1 c.2.1 c.2.2 * dayMs - bkkMs

/-- The UTC+7 civil day number of an instant. -/
def bkkCivilDay (t : Int) : Int := (t + bkkMs) / dayMs

/-- The UTC+7 civil time of day (milliseconds since local midnight) of an
instant. -/
def bkkTimeOfDay (t : Int) : Int := (t + bkkMs) % dayMs

/-- The `"YYYY-MM-DD"` part of `toISOString`, i.e. the UTC civil date of an
instant. -/
def isoDateStr (t : Int) : String := fmtYMD (civilFromDays (t / dayMs))

/-! ## Date helpers of the server variants -/

/-- Model of `addDays(dateStr, days)` from the `noonnon-2.0.0` variant and from
`src/unnamed/part_001`:

```js
function addDays(dateStr, days) {
  const d = new Date(dateStr + 'T00:00:00+07:00');
  d.setDate(d.getDate() + Number(days));
  return d.toISOString().slice(0, 10);
}
```

With `TZ=Asia/Bangkok`, `getDate` reads the +07:00 day-of-month, `setDate`
renormalizes on the +07:00 civil calendar keeping the local time of day, and
`toISOString` renders the **UTC** civil date of the resulting instant.
`none` models the Invalid-Date exception path for malformed input. -/
def addDays (dateStr : String) (days : Int) : Option String :=
  (parseYMD dateStr).map fun c =>
    let t0 := daysFromCivil c.1 c.2.1 c.2.2 * dayMs - bkkMs
    let localDay := (t0 + bkkMs) / dayMs
    let tod := (t0 + bkkMs) % dayMs
    let lc := civilFromDays localDay
    let t1 := daysFromCivil lc.1 lc.2.1 (lc.2.2 + days) * dayMs + tod - bkkMs
    isoDateStr t1

/-- Model of the next-due computation of the hybrid variant's `runPlanner`:

```js
const nextDue = new Date(new Date(`${lastDate}T00:00:00+07:00`).getTime() + cycleDays*86400000);
const nextDueStr = `${nextDue.getFullYear()}-${...getMonth()+1...}-${...getDate()...}`;
```

`getFullYear`/`getMonth`/`getDate` read the `TZ=Asia/Bangkok` (+07:00) civil
date of the instant. -/
def hybridNextDueStr (lastDate : String) (cycleDays : Int) : Option String :=
  (parseBkkMidnightMs lastDate).map fun t0 =>
    let t := t0 + cycleDays * dayMs
    fmtYMD (civilFromDays ((t + bkkMs) / dayMs))

/-- Model of the hybrid variant's resolution of the literal date token
`"today"` (`runPlanner`, executed per action at execution time):

```js
if (p.date === 'today') p.date = new Date().toISOString().slice(0,10);
```

`toISOString` renders the **UTC** civil date of the execution instant. -/
def resolveTodayHybrid (nowMs : Int) : String := isoDateStr nowMs

/-- The civil date of the execution instant on the fixed UTC+7 clock: what the
specification demands the token `"today"` resolve to. -/
def bkkTodayStr (nowMs : Int) : String := fmtYMD (civilFromDays ((nowMs + bkkMs) / dayMs))

/-! ## Vaccination records and the reminder generator (`noonnon-2.0.0` variant) -/

/-- A document of the `vaccines` collection. -/
structure VaccineDocB where
  owner_user_id : String
  pet_name : String
  vaccine_name : String
  last_shot_date : String
  next_due_date : String
deriving DecidableEq, Repr

/-- A document of the `reminders` collection (`noonnon-2.0.0` variant; these
carry the id of the vaccination record they belong to). -/
structure ReminderDocB where
  owner_user_id : String
  vaccine_id : Nat
  pet_name : String
  type : String
  remind_at : Int
  sent : Bool
deriving DecidableEq, Repr

/-- Model of `addVaccine(userId, pet_name, vaccine_name, last_shot_date,
cycle_days)` of the `noonnon-2.0.0` variant (the reduced variant in
`src/unnamed/part_001` creates the same three documents): computes
`nextDue = addDays(last_shot_date, cycle_days)`, writes one vaccination
record, then the three reminders at
`new Date(nextDue + 'T09:00:00+07:00')` minus 0, 1 and 7 days (in source
order `D0`, `D-1`, `D-7`), each `sent: false`. `vid` is the fresh document id
Firestore assigns to the vaccination record. -/
def addVaccineB (owner pet vac lastDate : String) (cycle : Int) (vid : Nat) :
    Option (VaccineDocB × List ReminderDocB) :=
  match addDays lastDate cycle with
  | none => none
  | some nextDue =>
    match parseYMD nextDue with
    | none => none
    | some c =>
      let d0 := daysFromCivil c.1 c.2.1 c.2.2 * dayMs + 9 * 3600000 - bkkMs
      some (⟨owner, pet, vac, lastDate, nextDue⟩,
        [⟨owner, vid, pet, "D0", d0, false⟩,
         ⟨owner, vid, pet, "D-1", d0 - dayMs, false⟩,
         ⟨owner, vid, pet, "D-7", d0 - 7 * dayMs, false⟩])

/-! ## JavaScript value helpers -/

/-- Truthiness of an optional string: `undefined`, `null` and `""` are falsy. -/
def jsTruthy : Option String → Bool
  | none => false
  | some s => s != ""

/-- `a || dflt` for an optional string against a string default. -/
def jsOrS (a : Option String) (dflt : String) : String :=
  match a with
  | some s => if s = "" then dflt else s
  | none => dflt

/-- `a || null` for an optional string: `""` collapses to `null`. -/
def jsOrNullS (a : Option String) : Option String :=
  match a with
  | some s => if s = "" then none else some s
  | none => none

/-- A loosely-typed string-ish JSON/JS value as the interpreter's plan params
carry it: the key is absent (`undefined` when read), the key holds JSON
`null`, or it holds a string. The distinction matters because the Firestore
client **rejects `undefined`** inside a written document (the write throws;
`ignoreUndefinedProperties` is never enabled in any variant) while `null` is
a storable value. -/
inductive JsVal where
  | undef : JsVal
  | null : JsVal
  | str : String → JsVal
deriving DecidableEq, Repr

/-- JavaScript truthiness of a `JsVal`: `undefined`, `null` and `""` are
falsy. -/
def jsvTruthy : JsVal → Bool
  | .str s => s != ""
  | _ => false

/-- `v || dflt` against a string default. -/
def jsvOrS (v : JsVal) (dflt : String) : String :=
  match v with
  | .str s => if s = "" then dflt else s
  | _ => dflt

/-- `v || null` collapsed to the storable form (`none` = stored `null`). -/
def jsvOrNullS (v : JsVal) : Option String :=
  match v with
  | .str s => if s = "" then none else some s
  | _ => none

/-- The Firestore-stored form of a `JsVal` that is not `undefined` (`none` =
stored `null`); call sites guard `undefined` away first, since writing it
throws. -/
def jsvStore : JsVal → Option String
  | .str s => some s
  | _ => none

/-- Template-literal interpolation of a `JsVal` (`${p.name}`): `undefined`
renders as "undefined", `null` as "null". -/
def jsvInterp : JsVal → String
  | .undef => "undefined"
  | .null => "null"
  | .str s => s

/-- The string content of a truthy `JsVal`. -/
def jsvGetS : JsVal → String
  | .str s => s
  | _ => ""

/-- `Number(p.cycle_days || 365)`: an absent or zero cycle becomes 365. -/
def jsCycle : Option Int → Int
  | none => 365
  | some c => if c = 0 then 365 else c

/-- `String.prototype.trim`, on the character list (the built-in `String.trim`
does not reduce in the kernel). -/
def jsTrim (s : String) : String :=
  String.mk ((s.data.dropWhile Char.isWhitespace).reverse.dropWhile Char.isWhitespace).reverse

/-- Lexicographic order on character lists by code point, the order Firestore
uses for string fields in `orderBy`. -/
def lexLe (a b : List Char) : Bool :=
  match a, b with
  | [], _ => true
  | _ :: _, [] => false
  | x :: xs, y :: ys => if x = y then lexLe xs ys else decide (x < y)

/-- String order by code point. -/
def strLe (a b : String) : Bool := lexLe a.data b.data

/-! ## Pets collection (`noonnon-2.0.0` variant) -/

/-- A document of the `pets` collection as written by `addOrUpdatePet`. -/
structure PetDocB where
  owner_user_id : String
  name : String
  species : Option String
  breed : Option String
  sex : String
  birthdate : Option String
  photo_url : Option String
  updated_at : Int
  created_at : Option Int
deriving DecidableEq, Repr

/-- The loosely-typed payload `addOrUpdatePet` receives. -/
structure PetPayload where
  name : Option String
  species : Option String
  breed : Option String
  sex : Option String
  birthdate : Option String
  photo_url : Option String
deriving DecidableEq, Repr

/-- The `where owner_user_id == userId, name == name` filter. -/
def petMatchB (userId petName : String) (p : Nat × PetDocB) : Bool :=
  p.2.owner_user_id == userId && p.2.name == petName

/-- The field set `addOrUpdatePet` writes (everything except `created_at`). -/
def petBaseB (now : Int) (userId : String) (payload : PetPayload) (nm : String) : PetDocB :=
  { owner_user_id := userId, name := nm,
    species := jsOrNullS payload.species, breed := jsOrNullS payload.breed,
    sex := jsOrS payload.sex "unknown",
    birthdate := jsOrNullS payload.birthdate, photo_url := jsOrNullS payload.photo_url,
    updated_at := now, created_at := none }

/-- Model of `addOrUpdatePet(userId, payload)` of the `noonnon-2.0.0` variant:
throws on a falsy name; otherwise queries the owner's pet of that exact name
(`limit(1)` — first document in default order) and either creates
(`add({...base, created_at: now})`) or merges `base` into the existing
document (`set(base, {merge: true})`, which rewrites every field of `base`
and leaves only `created_at` from the old document). `freshId` is the
document id Firestore would assign on create. -/
def addOrUpdatePet (now : Int) (freshId : Nat) (userId : String) (payload : PetPayload)
    (pets : List (Nat × PetDocB)) : Except String (List (Nat × PetDocB)) :=
  if jsTruthy payload.name then
    match pets.find? (petMatchB userId ((payload.name).getD "")) with
    | none => .ok (pets ++ [(freshId,
        { petBaseB now userId payload ((payload.name).getD "") with created_at := some now })])
    | some q =>
      .ok (pets.map fun r => if r.1 = q.1 then
        (r.1, { petBaseB now userId payload ((payload.name).getD "") with
                  created_at := r.2.created_at })
        else r)
  else .error "missing_pet_name"

/-- Model of `getLastPetName(userId)` of the `noonnon-2.0.0` variant:

```js
const qs = await db.collection('pets').where('owner_user_id','==',userId).orderBy('name').get();
if (qs.empty) return null;
return qs.docs[qs.docs.length - 1].data().name || null;
```

i.e. the name of the **last document in ascending name order** (a stable sort;
ties kept in document order), not the most recently updated pet. -/
def getLastPetName (pets : List (Nat × PetDocB)) (userId : String) : Option String :=
  match ((pets.filter fun p => p.2.owner_user_id == userId).insertionSort
      (fun a b => strLe a.2.name b.2.name = true)).getLast? with
  | none => none
  | some p => if p.2.name = "" then none else some p.2.name

/-- Model of the pet resolution the `noonnon-2.0.0` handlers actually perform
(`nlu.parameters?.pet_name || await getLastPetName(userId)`). -/
def resolvePetB (explicit : Option String) (pets : List (Nat × PetDocB)) (userId : String) :
    Option String :=
  if jsTruthy explicit then explicit else getLastPetName pets userId

/-- Modelled from the spec: the name of the most-recently-updated Pet on file
for the owner — the fallback §4.4 prescribes. (Last document when sorting the
owner's pets by `updated_at` ascending.) -/
def mostRecentlyUpdatedPetName (pets : List (Nat × PetDocB)) (userId : String) : Option String :=
  (((pets.filter fun p => p.2.owner_user_id == userId).insertionSort
      (fun a b => a.2.updated_at <= b.2.updated_at)).getLast?).map (fun p => p.2.name)

/-- Modelled from the spec: the pet-resolution priority exactly as the claim
states it — explicit name, then the pet last mentioned in the session, then
the most-recently-updated Pet on file. Stated for comparison with
`resolvePetB`. -/
def resolvePetClaimed (explicit sessionLastMentioned : Option String)
    (pets : List (Nat × PetDocB)) (userId : String) : Option String :=
  if jsTruthy explicit then explicit
  else if jsTruthy sessionLastMentioned then sessionLastMentioned
  else mostRecentlyUpdatedPetName pets userId

/-! ## List queries (`noonnon-2.0.0` variant) -/

/-- A document of the `treatments` collection. -/
structure TreatmentDoc where
  owner_user_id : String
  pet_name : String
  diagnosis : Option String
  hospital : Option String
  date : Option String
  note : Option String
  created_at : Int
deriving DecidableEq, Repr

/-- Reply of a read-only list handler: an explicit none-found message or the
formatted record lines (which are then either echoed or summarized). -/
inductive ListReply where
  | noneFound (pet : String)
  | items (lines : List String)
deriving DecidableEq, Repr

/-- `x || '-'` as used in the list formatters. -/
def orDash (s : String) : String := if s = "" then "-" else s

/-- `x || '-'` for a stored nullable field (`none` = stored `null`, which is
falsy and renders as "-"). -/
def orDashO : Option String → String
  | none => "-"
  | some s => if s = "" then "-" else s

/-- Line format of the `list_vaccine` handler. -/
def fmtVaccineLine (r : VaccineDocB) : String :=
  "• " ++ r.vaccine_name ++ "  ล่าสุด: " ++ orDash r.last_shot_date ++ "  นัด: " ++
    orDash r.next_due_date

/-- Model of the `list_vaccine` handler of the `noonnon-2.0.0` variant: the
query has **no** `orderBy`, so the documents come in Firestore default
(document) order; an empty snapshot yields the explicit
"ยังไม่มีข้อมูลวัคซีนของ &lt;pet&gt;" reply. -/
def listVaccineB (vaccines : List VaccineDocB) (userId pet : String) : ListReply :=
  let snap := vaccines.filter fun v => v.owner_user_id == userId && v.pet_name == pet
  if snap.isEmpty then .noneFound pet else .items (snap.map fmtVaccineLine)

/-- The due dates in the order the `list_vaccine` reply presents them. -/
def listVaccineDues (vaccines : List VaccineDocB) (userId pet : String) : List String :=
  (vaccines.filter fun v => v.owner_user_id == userId && v.pet_name == pet).map
    (fun v => v.next_due_date)

/-- Line format of the `list_treatments` handler. -/
def fmtTreatmentLine (r : TreatmentDoc) : String :=
  "• " ++ orDashO r.date ++ ": " ++ orDashO r.diagnosis ++ " @" ++
    orDashO r.hospital ++ " " ++
    (match r.note with
     | some n => if n = "" then "" else "- " ++ n
     | none => "")

/-- Model of the `list_treatments` handler of the `noonnon-2.0.0` variant:
ordered by `created_at` **descending**, limited to 10; an empty snapshot
yields the explicit none-found reply. -/
def listTreatmentsB (treatments : List TreatmentDoc) (userId pet : String) : ListReply :=
  let snap := ((treatments.filter fun v =>
      v.owner_user_id == userId && v.pet_name == pet).insertionSort
        (fun a b => b.created_at <= a.created_at)).take 10
  if snap.isEmpty then .noneFound pet else .items (snap.map fmtTreatmentLine)

/-! ## Sessions (hybrid variant) -/

/-- The accumulating per-field map of a session (the session-document field the
source calls "partial"). -/
structure Slots where
  pet_name : Option String
  vaccine_name : Option String
  date : Option String
  cycle_days : Option Int
deriving DecidableEq, Repr

/-- The empty field map `{}`. -/
def emptySlots : Slots := ⟨none, none, none, none⟩

/-- A document of the `sessions` collection. The third field is the
accumulating map the source calls "partial". -/
structure SessionDoc where
  expect : Option String
  pending_action : Option String
  slots : Slots
  updated_at : Option Int
deriving DecidableEq, Repr

/-- The canonical empty session
`{ expect: null, pending_action: null, partial: {}, updated_at: null }`. -/
def emptySessionDoc : SessionDoc := ⟨none, none, emptySlots, none⟩

/-- The `sessions` collection, keyed by user id. -/
def SessionStore : Type := String → Option SessionDoc

/-- Model of `loadSession(userId)` of the hybrid variant: the document's data,
or the canonical empty session when no document exists. -/
def loadSessionA (sessions : SessionStore) (userId : String) : SessionDoc :=
  (sessions userId).getD emptySessionDoc

/-- Model of `clearSession(userId)`: deletes the session document. -/
def clearSessionA (sessions : SessionStore) (userId : String) : SessionStore :=
  fun k => if k = userId then none else sessions k

/-- Model of `saveSession(userId, patch)` for the patches `runPlanner` issues
(which always carry all three of `expect`, `pending_action` and the field
map, so the merge rewrites the whole document plus `updated_at`). This
models only valid `set()` calls: a patch whose field map carries an
`undefined` value makes the Firestore client throw instead, which the call
sites in `execActionsA` guard for explicitly (`Slots` holds only storable
null-or-value fields). -/
def saveSessionA (now : Int) (sessions : SessionStore) (userId : String)
    (expect pending : Option String) (slots : Slots) : SessionStore :=
  fun k => if k = userId then some ⟨expect, pending, slots, some now⟩ else sessions k

/-! ## The hybrid variant's planner core (`runPlanner`) -/

/-- A document of the hybrid variant's `pets` collection. `add_pet` stores
`name` even when absent (as `undefined`); the find-or-create branch of
`add_vaccine` stores only owner, name and species, so the other attributes
are optional. -/
structure PetDocA where
  owner_user_id : String
  name : Option String
  species : String
  breed : Option String
  sex : Option String
  birthdate : Option String
  neutered : Option Bool
  color_markings : Option String
  profile_photo_url : Option String
deriving DecidableEq, Repr

/-- A document of the hybrid variant's `vaccines` collection. -/
structure VaccineDocA where
  owner_user_id : String
  pet_name : String
  vaccine_name : String
  last_shot_date : String
  next_due_date : String
deriving DecidableEq, Repr

/-- A document of the hybrid variant's `reminders` collection (these carry no
reference to the vaccination record, only owner and pet name). -/
structure ReminderDocA where
  owner_user_id : String
  pet_name : String
  type : String
  remind_at : Int
  sent : Bool
deriving DecidableEq, Repr

/-- The loosely-typed `params` object of an Action Request, restricted to the
keys the hybrid planner reads. The string-ish keys are `JsVal`s because a
plan produced by `JSON.parse` can hold a string, hold JSON `null`, or lack
the key entirely (reading it yields `undefined`), and the three behave
differently at the Firestore writes. `neutered` is kept as its
nullish-coalesced form (`p.neutered ?? null`, so `undefined` and `null`
coincide); `cycle_days` is numeric. -/
structure ParamsA where
  name : JsVal
  species : JsVal
  breed : JsVal
  sex : JsVal
  birthdate : JsVal
  neutered : Option Bool
  color_markings : JsVal
  profile_photo_url : JsVal
  pet_name : JsVal
  vaccine_name : JsVal
  date : JsVal
  cycle_days : Option Int
  message : JsVal
deriving DecidableEq, Repr

/-- An all-absent `params` object (`{}`: every key reads as `undefined`). -/
def noParams : ParamsA :=
  ⟨.undef, .undef, .undef, .undef, .undef, none, .undef, .undef, .undef, .undef, .undef,
    none, .undef⟩

/-- An Action Request (`{ action, params }`). -/
structure ActionA where
  action : Option String
  params : ParamsA
deriving DecidableEq, Repr

/-- A Plan as validated by `runPlanner` (the `confidence` field is never read
by the code, so it is omitted). -/
structure PlanA where
  reply_hint : Option String
  followup_question : Option String
  actions : List ActionA
deriving DecidableEq, Repr

/-- Result of the `llmPlanner` call as seen by `runPlanner`: the call threw, or
it returned `null` / a value without an actions array (both of which
`runPlanner` treats identically), or a structurally valid plan. -/
inductive LlmOutcome where
  | err : LlmOutcome
  | ok : Option PlanA → LlmOutcome
deriving DecidableEq

/-- The persistent state the hybrid planner reads and writes. `nextId` is the
next document id Firestore assigns. -/
structure WorldA where
  pets : List (Nat × PetDocA)
  vaccines : List VaccineDocA
  reminders : List ReminderDocA
  sessions : SessionStore
  nextId : Nat

/-- Result of one `runPlanner` turn: the reply text and the updated state. -/
structure PlannerOut where
  reply : String
  world : WorldA

/-- The empty state. -/
def emptyWorldA : WorldA := ⟨[], [], [], fun _ => none, 1⟩

/-- One `add_pet` write of the hybrid planner (unconditional
`db.collection('pets').add({...})` — no find-or-create). Every field except
`name` is defaulted or null-collapsed before the write, so only `p.name`
can be `undefined` there; the caller guards that case (the write would
throw). A null name is storable and stored. -/
def hybridAddPetDoc (userId : String) (p : ParamsA) : PetDocA :=
  { owner_user_id := userId, name := jsvStore p.name,
    species := jsvOrS p.species "dog", breed := jsvOrNullS p.breed,
    sex := some (jsvOrS p.sex "unknown"), birthdate := jsvOrNullS p.birthdate,
    neutered := p.neutered, color_markings := jsvOrNullS p.color_markings,
    profile_photo_url := jsvOrNullS p.profile_photo_url }

/-- The pet document the hybrid `add_vaccine` branch creates when no pet of
the given name exists (only owner, name and species are written; `petName`
is a truthy string there). -/
def hybridCreatedPetDoc (userId petName : String) (p : ParamsA) : PetDocA :=
  { owner_user_id := userId, name := some petName,
    species := jsvOrS p.species "dog", breed := none, sex := none, birthdate := none,
    neutered := none, color_markings := none, profile_photo_url := none }

/-- The action loop of the hybrid `runPlanner` (lines 263–347 of the source):
processes the plan's actions in order; an incomplete `add_vaccine` returns
early after persisting the patched session. A Firestore write that would
contain an `undefined` value throws inside the loop; the webhook handler
catches the turn's error and replies the generic apology, so those paths
return that apology with the state accumulated so far and nothing further
written. `session` is the session value the turn loaded (used by
`patchPartial`); `nowMs` the execution instant. -/
def execActionsA (userId : String) (plan : PlanA) (session : SessionDoc) (nowMs : Int) :
    List ActionA → WorldA → List String → PlannerOut
  | [], w, lines =>
    { reply := jsOrS plan.reply_hint
        (if lines.isEmpty then "เรียบร้อยค่ะ 🐾" else String.intercalate "\n" lines),
      world := w }
  | a :: rest, w, lines =>
    let act := jsTrim (jsOrS a.action "")
    let pdate := if a.params.date == JsVal.str "today"
      then JsVal.str (resolveTodayHybrid nowMs) else a.params.date
    if act = "add_pet" then
      if a.params.name == JsVal.undef then
        -- db.collection('pets').add({name: undefined, ...}) throws — the
        -- Firestore client rejects undefined values — so nothing is written,
        -- the session is untouched, and the webhook handler catches the
        -- turn's error and replies the generic apology
        { reply := "ขออภัย น้อนน้อนติดขัดนิดหน่อย ลองอีกครั้งได้ไหมคะ 🐾", world := w }
      else
        let w1 : WorldA := { w with
          pets := w.pets ++ [(w.nextId, hybridAddPetDoc userId a.params)],
          nextId := w.nextId + 1,
          sessions := clearSessionA w.sessions userId }
        execActionsA userId plan session nowMs rest w1
          (lines ++ ["สร้างโปรไฟล์ **" ++ jsvInterp a.params.name ++ "** ให้เรียบร้อยค่ะ 🐾"])
    else if act = "add_vaccine" then
      let petName := a.params.pet_name
      let vaccine := a.params.vaccine_name
      let cycleDays := jsCycle a.params.cycle_days
      if !(jsvTruthy petName && jsvTruthy vaccine && jsvTruthy pdate) then
        if petName == JsVal.undef || vaccine == JsVal.undef || pdate == JsVal.undef then
          -- the hold's partial carries the corresponding key with value
          -- undefined, so saveSession's Firestore set() throws before
          -- writing anything; the webhook handler catches and replies the
          -- generic apology — no expect is persisted
          { reply := "ขออภัย น้อนน้อนติดขัดนิดหน่อย ลองอีกครั้งได้ไหมคะ 🐾", world := w }
        else
          let hold : Slots := ⟨jsvStore petName, jsvStore vaccine, jsvStore pdate,
            some cycleDays⟩
          let expectF := if !jsvTruthy vaccine then "vaccine_name"
            else if !jsvTruthy petName then "pet_name" else "date"
          let s1 := saveSessionA nowMs w.sessions userId (some expectF) (some "add_vaccine") hold
          { reply := jsOrS plan.followup_question "ขอทราบชื่อวัคซีน/ชื่อสัตว์/วันที่ค่ะ",
            world := { w with sessions := s1 } }
      else
        let pn := jsvGetS petName
        let target := jsTrim pn
        let found := ((w.pets.filter fun q => q.2.owner_user_id == userId).filter
          fun q => jsTrim (jsOrS q.2.name "") == target).getLast?
        let w1 : WorldA := match found with
          | some _ => w
          | none => { w with
              pets := w.pets ++ [(w.nextId, hybridCreatedPetDoc userId pn a.params)],
              nextId := w.nextId + 1 }
        match hybridNextDueStr (jsvGetS pdate) cycleDays with
        | none =>
          -- an unparseable date makes the JS Date invalid and the turn throw;
          -- the webhook handler catches it and apologizes
          { reply := "ขออภัย น้อนน้อนติดขัดนิดหน่อย ลองอีกครั้งได้ไหมคะ 🐾", world := w1 }
        | some nds =>
          match parseYMD nds with
          | none =>
            { reply := "ขออภัย น้อนน้อนติดขัดนิดหน่อย ลองอีกครั้งได้ไหมคะ 🐾", world := w1 }
          | some c =>
            let d0 := daysFromCivil c.1 c.2.1 c.2.2 * dayMs + 9 * 3600000 - bkkMs
            let w2 : WorldA := { w1 with
              vaccines := w1.vaccines ++
                [⟨userId, pn, jsvGetS vaccine, jsvGetS pdate, nds⟩],
              reminders := w1.reminders ++
                [⟨userId, pn, "D-7", d0 - 7 * dayMs, false⟩,
                 ⟨userId, pn, "D-1", d0 - dayMs, false⟩,
                 ⟨userId, pn, "D0", d0, false⟩],
              sessions := clearSessionA w1.sessions userId }
            execActionsA userId plan session nowMs rest w2
              (lines ++ ["บันทึกวัคซีน **" ++ jsvGetS vaccine ++ "** ให้ **" ++ pn ++
                "** แล้วค่ะ นัดถัดไป **" ++ nds ++ "** ✅"])
    else if act = "confirm" then
      let w1 : WorldA := { w with sessions := clearSessionA w.sessions userId }
      execActionsA userId plan session nowMs rest w1
        (lines ++ [jsvOrS a.params.message "รับทราบค่ะ ✅"])
    else
      execActionsA userId plan session nowMs rest w lines

/-- Model of the hybrid variant's `runPlanner(userId, text, session)` given the
outcome of its `llmPlanner` call: the catch branch, the invalid-plan branch,
the followup/noop branch (which persists the session with
`expect: 'followup'`), and the action loop. -/
def runPlannerA (userId : String) (llm : LlmOutcome) (session : SessionDoc) (nowMs : Int)
    (w : WorldA) : PlannerOut :=
  match llm with
  | .err => { reply := "ระบบกำลังเริ่มต้นอยู่ค่ะ โปรดลองอีกครั้งนะคะ 🐾", world := w }
  | .ok none =>
    { reply := "น้อนน้อนไม่แน่ใจค่ะ ต้องการ “บันทึกข้อมูล” หรือ “ปรึกษาอาการ” ดีคะ? 🐾", world := w }
  | .ok (some plan) =>
    if jsTruthy plan.followup_question &&
        (match plan.actions with
         | [] => true
         | a :: _ => a.action == some "noop") then
      let s1 := saveSessionA nowMs w.sessions userId (some "followup") (some "collect") session.slots
      { reply := jsOrS plan.reply_hint (jsOrS plan.followup_question ""),
        world := { w with sessions := s1 } }
    else
      execActionsA userId plan session nowMs plan.actions w []

/-! ## The Plan Interpreter Adapter -/

/-- ASCII lower-casing of a character (for the `/i` regex flag). -/
def asciiLower (c : Char) : Char :=
  if 65 <= c.toNat && c.toNat <= 90 then Char.ofNat (c.toNat + 32) else c

/-- Index of the first occurrence of `pat` in a character list. -/
def findSub (pat : List Char) : List Char → Option Nat
  | [] => if pat.isEmpty then some 0 else none
  | c :: t => if pat.isPrefixOf (c :: t) then some 0 else (findSub pat t).map (fun n => n + 1)

/-- Index of the last occurrence of the character `c`. -/
def lastIdxOf (c : Char) (cs : List Char) : Option Nat :=
  (findSub [c] cs.reverse).map fun i => cs.length - 1 - i

/-- The left brace and right brace characters (written by code point). -/
def lbrace : Char := Char.ofNat 123

/-- See `lbrace`. -/
def rbrace : Char := Char.ofNat 125

/-- The capture of the first match of the fenced-block regex (case-insensitive
fence marker, greedy whitespace skip, lazy capture up to the next closing
fence). `none` when the regex does not match. -/
def fenceInner (cs : List Char) : Option (List Char) :=
  match findSub "```json".data (cs.map asciiLower) with
  | none => none
  | some i =>
    let inner := (cs.drop (i + 7)).dropWhile Char.isWhitespace
    match findSub "```".data inner with
    | none => none
    | some j => some (inner.take j)

/-- The `trimmed.slice(a, b + 1)` brace-delimited substring, where `a` is the
first index of a left brace and `b` the last index of a right brace, provided
`a >= 0 && b > a`. -/
def braceSlice (cs : List Char) : Option (List Char) :=
  match findSub [lbrace] cs, lastIdxOf rbrace cs with
  | some a, some b => if a < b then some ((cs.drop a).take (b + 1 - a)) else none
  | _, _ => none

/-- Stage one of `extractJSON`: parse the fenced-block capture when the fence
regex matches (`if (mFence) { try { return JSON.parse(mFence[1]); } catch {} }`
— a parse failure falls through to the next stage). -/
def fenceParse {Json : Type} (parse : String → Option Json) (cs : List Char) : Option Json :=
  match fenceInner cs with
  | some inner => parse (String.mk inner)
  | none => none

/-- Stage three of `extractJSON`: parse the brace-delimited substring when one
exists. -/
def braceParse {Json : Type} (parse : String → Option Json) (cs : List Char) : Option Json :=
  match braceSlice cs with
  | some sub => parse (String.mk sub)
  | none => none

/-- Model of the hybrid variant's `extractJSON(text)`, with the JSON parser
abstracted as `parse`: falsy text yields `null`; otherwise try the fenced
block, then the whole trimmed text, then the brace-delimited substring; each
failed parse falls through, and `null` is returned only after all three
attempts fail. -/
def extractJSON {Json : Type} (parse : String → Option Json) :
    Option String → Option Json
  | none => none
  | some s =>
    if s = "" then none
    else
      match fenceParse parse (jsTrim s).data with
      | some j => some j
      | none =>
        match parse (jsTrim s) with
        | some j => some j
        | none => braceParse parse (jsTrim s).data

/-- Outcome of one call to the external language-model service. -/
inductive ServiceOutcome where
  | httpError : Nat → ServiceOutcome
  | ok : String → ServiceOutcome
deriving DecidableEq, Repr

/-- The error the hybrid `geminiCall` throws on a non-ok HTTP response. -/
inductive GeminiError where
  | http : Nat → GeminiError
deriving DecidableEq, Repr

/-- Model of the hybrid variant's `geminiCall({..., json: true})`: on a non-ok
response it **throws** `new Error('Gemini HTTP ...')`; on success it returns
`extractJSON` of the joined candidate text. -/
def geminiCallA {Json : Type} (parse : String → Option Json) (svc : ServiceOutcome) :
    Except GeminiError (Option Json) :=
  match svc with
  | .httpError st => .error (.http st)
  | .ok text => .ok (extractJSON parse (some text))

/-- Model of the `noonnon-2.0.0` variant's `geminiCall`: any axios error is
caught and becomes `null`; otherwise the candidate text. -/
def geminiCallB (svc : ServiceOutcome) : Option String :=
  match svc with
  | .httpError _ => none
  | .ok text => some text

/-- `text.replace(/```json|```/g, '')`: remove every fence marker, preferring
the longer alternative at each position, scanning left to right. -/
def stripFences : List Char → List Char
  | [] => []
  | c :: t =>
    if "```json".data.isPrefixOf (c :: t) then stripFences (t.drop 6)
    else if "```".data.isPrefixOf (c :: t) then stripFences (t.drop 2)
    else c :: stripFences t
termination_by cs => cs.length
decreasing_by
  all_goals simp [List.length_drop]
  all_goals omega

/-- Model of the `noonnon-2.0.0` variant's `geminiNLU`: `null` on service
failure or empty text; otherwise strip the fence markers, trim, and attempt a
single whole-text parse, collapsing a parse failure to `null`. -/
def geminiNLU_B {Json : Type} (parse : String → Option Json) (svc : ServiceOutcome) :
    Option Json :=
  match geminiCallB svc with
  | none => none
  | some text =>
    if text = "" then none
    else parse (jsTrim (String.mk (stripFences text.data)))

/-! ## Spec-side notions used to state the claims -/

/-- Modelled from the spec (§4.4): an Action Request is *complete* when its
kind-specific required fields are present — `add_pet` requires `name`;
`add_vaccine` requires `pet_name`, `vaccine_name` and `date`; `confirm` and
the read-only list kinds have no required fields; `noop` (and an
unrecognized kind, which the spec folds into `noop`) is a deferral
placeholder, not a complete executable action. -/
def specCompleteAction (a : ActionA) : Bool :=
  match a.action with
  | some "add_pet" => jsvTruthy a.params.name
  | some "add_vaccine" =>
    jsvTruthy a.params.pet_name && jsvTruthy a.params.vaccine_name && jsvTruthy a.params.date
  | some "confirm" => true
  | some "list_vaccine" => true
  | some "list_treatment" => true
  | _ => false

/-! ## Concrete instances used by witnesses and counterexamples -/

/-- A trivial JSON parser instance (rejects everything); the adapter claims
about the error path do not depend on the parser. -/
def noJson : String → Option Unit := fun _ => none

/-- Execution instant 2025-11-02T18:00:00Z, which is 2025-11-03 01:00 on the
UTC+7 clock. -/
def c5Instant : Int := daysFromCivil 2025 11 2 * dayMs + 18 * 3600000

/-- The vaccination record `addVaccineB "U1" "โมจิ" "Rabies" "2025-11-03" 365 7`
stores. -/
def c1Vdoc : VaccineDocB := ⟨"U1", "โมจิ", "Rabies", "2025-11-03", "2026-11-02"⟩

/-- The `D0` instant of that record (09:00+07:00 on its stored next-due date). -/
def c1D0 : Int := daysFromCivil 2026 11 2 * dayMs + 9 * 3600000 - bkkMs

/-- The reminder triplet of that record. -/
def c1Rems : List ReminderDocB :=
  [⟨"U1", 7, "โมจิ", "D0", c1D0, false⟩,
   ⟨"U1", 7, "โมจิ", "D-1", c1D0 - dayMs, false⟩,
   ⟨"U1", 7, "โมจิ", "D-7", c1D0 - 7 * dayMs, false⟩]

/-- A Plan with an open follow-up question and a single **incomplete**
`add_pet` action: the `name` key is present but JSON `null` (a storable
value, so the unconditional write succeeds). -/
def c3Plan : PlanA :=
  { reply_hint := none,
    followup_question := some "น้องชื่ออะไรคะ?",
    actions := [{ action := some "add_pet", params := { noParams with name := JsVal.null } }] }

/-- A Plan carrying one complete `add_pet` action for the pet "โมจิ". -/
def c4Plan : PlanA :=
  { reply_hint := none,
    followup_question := none,
    actions := [{ action := some "add_pet",
                  params := { noParams with name := JsVal.str "โมจิ" } }] }

/-- State after executing `c4Plan` once from the empty state. -/
def c4World1 : WorldA := (runPlannerA "U1" (.ok (some c4Plan)) emptySessionDoc 0 emptyWorldA).world

/-- State after executing the identical `c4Plan` a second time. -/
def c4World2 : WorldA :=
  (runPlannerA "U1" (.ok (some c4Plan)) (loadSessionA c4World1.sessions "U1") 0 c4World1).world

/-- The hybrid pets a user holds named `nm` after a world evolution. -/
def petsNamed (w : WorldA) (userId nm : String) : List (Nat × PetDocA) :=
  w.pets.filter fun p => p.2.owner_user_id == userId && p.2.name == some nm

/-- The `add_pet` payload for "โมจิ" with no further attributes. -/
def c4Payload : PetPayload := ⟨some "โมจิ", none, none, none, none, none⟩

/-- The pets a user holds named `nm` in the `noonnon-2.0.0` store. -/
def petsNamedB (pets : List (Nat × PetDocB)) (userId nm : String) : List (Nat × PetDocB) :=
  pets.filter (petMatchB userId nm)

/-- Two pets on file for user `U1`: "Zed" (updated at 100) and "Alpha"
(updated at 200, hence most recently updated). -/
def c8Pets : List (Nat × PetDocB) :=
  [(1, ⟨"U1", "Zed", none, none, "unknown", none, none, 100, some 100⟩),
   (2, ⟨"U1", "Alpha", none, none, "unknown", none, none, 200, some 200⟩)]

/-- Two vaccination records for the same pet whose next-due dates are stored
in descending order. -/
def c9Vaccines : List VaccineDocB :=
  [⟨"U1", "โมจิ", "Rabies", "2026-01-10", "2027-01-10"⟩,
   ⟨"U1", "โมจิ", "Parvo", "2025-01-10", "2026-01-10"⟩]

/-- A session store holding one session document for user `U1`. -/
def c10Store : SessionStore :=
  fun k => if k = "U1" then some ⟨some "followup", some "collect", emptySlots, some 5⟩ else none

/-- A Plan with a single `add_vaccine` action whose params object is `{}`:
every required key is absent, so each reads as `undefined`. -/
def c6Plan : PlanA :=
  { reply_hint := none, followup_question := none,
    actions := [{ action := some "add_vaccine", params := noParams }] }

/-- A Plan with a single `add_vaccine` action whose required keys are present
but JSON `null` (supplying no details in storable form). -/
def c6NullPlan : PlanA :=
  { reply_hint := none, followup_question := none,
    actions := [{ action := some "add_vaccine",
                  params := { noParams with
                    pet_name := JsVal.null, vaccine_name := JsVal.null,
                    date := JsVal.null } }] }

/-- A Plan with a follow-up question and no actions. -/
def c3aPlan : PlanA :=
  { reply_hint := none, followup_question := some "น้องตัวไหนคะ?", actions := [] }

/-- A session already holding an accumulated pet name. -/
def c3aSession : SessionDoc :=
  ⟨some "followup", some "collect", ⟨some "โมจิ", none, none, none⟩, some 1⟩

/-- The three parse attempts of `extractJSON` all failing on a given text:
the fenced-block capture (when the fence regex matches), the whole trimmed
text, and the brace-delimited substring (when braces delimit one). -/
def stagesAllFail {Json : Type} (parse : String → Option Json) (s : String) : Prop :=
  (∀ inner, fenceInner (jsTrim s).data = some inner → parse (String.mk inner) = none) ∧
  parse (jsTrim s) = none ∧
  (∀ sub, braceSlice (jsTrim s).data = some sub → parse (String.mk sub) = none)

/-! ## Theorems -/

/-- Helper: the instant `D·day + 09:00 − 07:00` shifted back `k` whole days
falls on UTC+7 civil day `D − k`, at 09:00 local time. -/
theorem bkk_day_tod (D k : Int) :
    bkkCivilDay (D * dayMs + 9 * 3600000 - bkkMs - k * dayMs) = D - k ∧
    bkkTimeOfDay (D * dayMs + 9 * 3600000 - bkkMs - k * dayMs) = 9 * 3600000 := by
  unfold bkkCivilDay bkkTimeOfDay dayMs bkkMs
  omega

/-- **C2** (code bug). `addDays` — the function every `addVaccine` execution of
the `noonnon-2.0.0` and `part_001` variants uses to compute the stored
`next_due_date` — maps date "2025-11-03" with cycle 365 to "2026-11-02", one
day before the calendar sum "2026-11-03" that the claim (and the spec's
round-trip property) requires: `toISOString` renders the UTC civil date of
the UTC+7 local-midnight instant, which is always the previous day. The
hybrid variant's rendering of the same computation via the local-time
accessors produces the required "2026-11-03". -/
theorem addDays_next_due_off_by_one :
    addDays "2025-11-03" 365 = some "2026-11-02" ∧
    hybridNextDueStr "2025-11-03" 365 = some "2026-11-03" ∧
    addDays "2025-11-03" 365 ≠ some "2026-11-03" := by
  refine ⟨by decide, by decide, by decide⟩

/-- **C5** (code bug). The hybrid planner does resolve the literal token
`"today"` at execution time, but to the **UTC** calendar date
(`toISOString().slice(0,10)`), not to the UTC+7 civil date the claim
requires: at 2025-11-02T18:00:00Z (01:00 of 2025-11-03 on the UTC+7 clock)
it stores "2025-11-02" while the fixed-zone civil day is "2025-11-03". -/
theorem today_resolved_to_utc_date :
    resolveTodayHybrid c5Instant = "2025-11-02" ∧
    bkkTodayStr c5Instant = "2025-11-03" ∧
    resolveTodayHybrid c5Instant ≠ bkkTodayStr c5Instant := by
  refine ⟨by decide, by decide, by decide⟩

/-- **C10** (confirmed). Clearing a session and then loading it yields the
canonical empty session, and loading any missing session document yields the
same canonical empty session — `loadSession` never fails on absence. -/
theorem loadSession_missing_or_cleared_is_empty (sessions : SessionStore) (userId : String)
    (h : sessions userId = none) :
    loadSessionA (clearSessionA sessions userId) userId = emptySessionDoc ∧
    loadSessionA sessions userId = emptySessionDoc := by
  constructor
  · unfold loadSessionA clearSessionA
    simp
  · unfold loadSessionA
    rw [h]
    rfl

/-- Witness for `loadSession_missing_or_cleared_is_empty` at a store that
holds a session for `U1` and none for `U2`. -/
theorem loadSession_missing_or_cleared_is_empty_witness :
    c10Store "U2" = none ∧
    (loadSessionA (clearSessionA c10Store "U2") "U2" = emptySessionDoc ∧
      loadSessionA c10Store "U2" = emptySessionDoc) :=
  ⟨by decide, loadSession_missing_or_cleared_is_empty c10Store "U2" (by decide)⟩

/-- **C1** (confirmed). Every executed `addVaccine` creates exactly three
reminder records, all referencing the new vaccination record's document id,
of types D0, D-1 and D-7, scheduled 0, 1 and 7 civil days before the
computed `next_due_date`, each at 09:00 on the fixed UTC+7 clock. -/
theorem addVaccine_reminder_triplet
    (owner pet vac lastDate : String) (cycle : Int) (vid : Nat)
    (vdoc : VaccineDocB) (rems : List ReminderDocB) (y m d : Int)
    (h : addVaccineB owner pet vac lastDate cycle vid = some (vdoc, rems))
    (hp : parseYMD vdoc.next_due_date = some (y, m, d)) :
    rems.length = 3 ∧
    (∀ r ∈ rems, r.vaccine_id = vid ∧ r.owner_user_id = owner ∧ r.sent = false) ∧
    rems.map (fun r => (r.type, bkkCivilDay r.remind_at, bkkTimeOfDay r.remind_at)) =
      [("D0", daysFromCivil y m d, 9 * 3600000),
       ("D-1", daysFromCivil y m d - 1, 9 * 3600000),
       ("D-7", daysFromCivil y m d - 7, 9 * 3600000)] := by
  unfold addVaccineB at h
  split at h
  · cases h
  next nd had =>
    split at h
    · cases h
    next c hc =>
      simp only [Option.some.injEq, Prod.mk.injEq] at h
      obtain ⟨hv, hr⟩ := h
      have hnd : vdoc.next_due_date = nd := by rw [← hv]
      rw [hnd, hc] at hp
      injection hp with hp'
      subst hp'
      subst hr
      refine ⟨rfl, ?_, ?_⟩
      · intro r hr
        simp only [List.mem_cons, List.not_mem_nil, or_false] at hr
        rcases hr with h1 | h1 | h1 <;> subst h1 <;> exact ⟨rfl, rfl, rfl⟩
      · simp only [List.map_cons, List.map_nil, List.cons.injEq, Prod.mk.injEq]
        repeat' apply And.intro
        all_goals first
          | trivial
          | (simp only [bkkCivilDay, bkkTimeOfDay, dayMs, bkkMs]; omega)

/-- Witness for `addVaccine_reminder_triplet` at a concrete execution. -/
theorem addVaccine_reminder_triplet_witness :
    addVaccineB "U1" "โมจิ" "Rabies" "2025-11-03" 365 7 = some (c1Vdoc, c1Rems) ∧
    parseYMD c1Vdoc.next_due_date = some (2026, 11, 2) ∧
    (c1Rems.length = 3 ∧
      (∀ r ∈ c1Rems, r.vaccine_id = 7 ∧ r.owner_user_id = "U1" ∧ r.sent = false) ∧
      c1Rems.map (fun r => (r.type, bkkCivilDay r.remind_at, bkkTimeOfDay r.remind_at)) =
        [("D0", daysFromCivil 2026 11 2, 9 * 3600000),
         ("D-1", daysFromCivil 2026 11 2 - 1, 9 * 3600000),
         ("D-7", daysFromCivil 2026 11 2 - 7, 9 * 3600000)]) :=
  ⟨by decide, by decide,
    addVaccine_reminder_triplet "U1" "โมจิ" "Rabies" "2025-11-03" 365 7 c1Vdoc c1Rems
      2026 11 2 (by decide) (by decide)⟩

/-- **C6** counterexample. The canonical missing-field case — an `add_vaccine`
action whose required keys are absent from the params JSON — does **not**
make the planner ask for a field: `patchPartial` puts the undefined values
into the hold's partial map, `saveSession`'s Firestore `set()` throws on
them, and the webhook handler replies the generic apology; no `expect` is
persisted (the session document stays absent) and no question is asked —
contradicting the claim at this concrete input. -/
theorem add_vaccine_absent_fields_abort_cex :
    (∀ a ∈ c6Plan.actions, a.action = some "add_vaccine" ∧
      jsvTruthy a.params.vaccine_name = false ∧ jsvTruthy a.params.pet_name = false ∧
      jsvTruthy a.params.date = false) ∧
    (runPlannerA "U1" (.ok (some c6Plan)) emptySessionDoc 0 emptyWorldA).world.sessions "U1"
      = none ∧
    (runPlannerA "U1" (.ok (some c6Plan)) emptySessionDoc 0 emptyWorldA).reply
      = "ขออภัย น้อนน้อนติดขัดนิดหน่อย ลองอีกครั้งได้ไหมคะ 🐾" := by
  decide

/-- **C6** as amended. When the planner executes an `add_vaccine` action whose
required fields are missing but **present** in the params (as JSON `null` or
an empty string — storable values), it persists the session with
`pending_action = add_vaccine`, the patched field map, and `expect` set to
exactly one field chosen by the fixed priority vaccine name → pet name →
date; it emits a single reply (the plan's follow-up question, or the fixed
re-ask), and writes no records. When a required key is absent entirely, the
session save throws on the undefined value and the turn aborts with the
generic apology instead. -/
theorem add_vaccine_missing_field_priority
    (userId : String) (plan : PlanA) (p : ParamsA) (session : SessionDoc) (nowMs : Int)
    (w : WorldA)
    (hplan : plan.actions = [{ action := some "add_vaccine", params := p }])
    (hmiss : (jsvTruthy p.pet_name && jsvTruthy p.vaccine_name &&
      jsvTruthy (if p.date == JsVal.str "today" then JsVal.str (resolveTodayHybrid nowMs)
        else p.date)) = false)
    (hdef : (p.pet_name == JsVal.undef || p.vaccine_name == JsVal.undef ||
      (if p.date == JsVal.str "today" then JsVal.str (resolveTodayHybrid nowMs)
        else p.date) == JsVal.undef) = false) :
    (runPlannerA userId (.ok (some plan)) session nowMs w).world.sessions userId = some
      ⟨some (if !jsvTruthy p.vaccine_name then "vaccine_name"
             else if !jsvTruthy p.pet_name then "pet_name" else "date"),
       some "add_vaccine",
       ⟨jsvStore p.pet_name, jsvStore p.vaccine_name,
        jsvStore (if p.date == JsVal.str "today" then JsVal.str (resolveTodayHybrid nowMs)
          else p.date),
        some (jsCycle p.cycle_days)⟩,
       some nowMs⟩ ∧
    (runPlannerA userId (.ok (some plan)) session nowMs w).reply
      = jsOrS plan.followup_question "ขอทราบชื่อวัคซีน/ชื่อสัตว์/วันที่ค่ะ" ∧
    (runPlannerA userId (.ok (some plan)) session nowMs w).world.pets = w.pets ∧
    (runPlannerA userId (.ok (some plan)) session nowMs w).world.vaccines = w.vaccines ∧
    (runPlannerA userId (.ok (some plan)) session nowMs w).world.reminders = w.reminders := by
  have hact : jsTrim (jsOrS (some "add_vaccine") "") = "add_vaccine" := by decide
  have hnoop : ((ActionA.mk (some "add_vaccine") p).action == some "noop") = false := by rfl
  simp only [runPlannerA, hplan]
  rw [if_neg (by rw [hnoop]; simp)]
  simp only [execActionsA]
  rw [hact]
  rw [if_neg (by decide), if_pos rfl]
  rw [hmiss]
  rw [hdef]
  simp [saveSessionA]

/-- Witness for `add_vaccine_missing_field_priority`: an `add_vaccine` action
supplying no details, with the required keys present as JSON null, yields
`expect = vaccine_name`. -/
theorem add_vaccine_missing_field_priority_witness :
    c6NullPlan.actions = [⟨some "add_vaccine",
      { noParams with pet_name := JsVal.null, vaccine_name := JsVal.null,
                      date := JsVal.null }⟩] ∧
    (jsvTruthy JsVal.null && jsvTruthy JsVal.null &&
      jsvTruthy (if JsVal.null == JsVal.str "today" then JsVal.str (resolveTodayHybrid 0)
        else JsVal.null)) = false ∧
    ((runPlannerA "U1" (.ok (some c6NullPlan)) emptySessionDoc 0 emptyWorldA).world.sessions
        "U1" = some
      ⟨some (if !jsvTruthy JsVal.null then "vaccine_name"
             else if !jsvTruthy JsVal.null then "pet_name" else "date"),
       some "add_vaccine",
       ⟨jsvStore JsVal.null, jsvStore JsVal.null,
        jsvStore (if JsVal.null == JsVal.str "today" then JsVal.str (resolveTodayHybrid 0)
          else JsVal.null),
        some (jsCycle none)⟩,
       some 0⟩ ∧
    (runPlannerA "U1" (.ok (some c6NullPlan)) emptySessionDoc 0 emptyWorldA).reply
      = jsOrS c6NullPlan.followup_question "ขอทราบชื่อวัคซีน/ชื่อสัตว์/วันที่ค่ะ" ∧
    (runPlannerA "U1" (.ok (some c6NullPlan)) emptySessionDoc 0 emptyWorldA).world.pets
      = emptyWorldA.pets ∧
    (runPlannerA "U1" (.ok (some c6NullPlan)) emptySessionDoc 0 emptyWorldA).world.vaccines
      = emptyWorldA.vaccines ∧
    (runPlannerA "U1" (.ok (some c6NullPlan)) emptySessionDoc 0 emptyWorldA).world.reminders
      = emptyWorldA.reminders) :=
  ⟨rfl, by decide,
    add_vaccine_missing_field_priority "U1" c6NullPlan
      { noParams with pet_name := JsVal.null, vaccine_name := JsVal.null, date := JsVal.null }
      emptySessionDoc 0 emptyWorldA rfl (by decide) (by decide)⟩

/-- **C3** counterexample. A Plan whose `followup_question` is set and whose
single action is an **incomplete** `add_pet` — the `name` key present but
JSON `null`, not a complete action under the spec's per-kind required
fields — slips past the guard
`(!plan.actions.length || plan.actions[0].action === 'noop')`: the planner
executes the incomplete action (the write succeeds, `null` being a storable
value), creating a null-named pet profile, clears the session (`expect` ends
as none, not non-none), and replies with a creation acknowledgement
interpolating the null name instead of exactly one question — contradicting
the claim at this concrete input. -/
theorem planner_followup_incomplete_action_cex :
    jsTruthy c3Plan.followup_question = true ∧
    (∀ a ∈ c3Plan.actions, specCompleteAction a = false) ∧
    (runPlannerA "U1" (.ok (some c3Plan)) emptySessionDoc 0 emptyWorldA).world.sessions "U1"
      = none ∧
    (runPlannerA "U1" (.ok (some c3Plan)) emptySessionDoc 0 emptyWorldA).world.pets.length
      = 1 ∧
    (runPlannerA "U1" (.ok (some c3Plan)) emptySessionDoc 0 emptyWorldA).reply
      = "สร้างโปรไฟล์ **null** ให้เรียบร้อยค่ะ 🐾" := by
  decide

/-- **C3** as amended. When a Plan's `followup_question` is set and its action
list is empty or starts with a `noop` action, the planner emits exactly one
reply — the `reply_hint` if present, otherwise the follow-up question —
persists the accumulated field map unchanged with `expect = 'followup'`
(non-none) and `pending_action = 'collect'`, and writes no records. -/
theorem planner_followup_noop_defers
    (userId : String) (plan : PlanA) (session : SessionDoc) (nowMs : Int) (w : WorldA)
    (hfq : jsTruthy plan.followup_question = true)
    (hnoop : plan.actions = [] ∨ ∃ a rest, plan.actions = a :: rest ∧ a.action = some "noop") :
    (runPlannerA userId (.ok (some plan)) session nowMs w).reply
      = jsOrS plan.reply_hint (jsOrS plan.followup_question "") ∧
    (runPlannerA userId (.ok (some plan)) session nowMs w).world.sessions userId
      = some ⟨some "followup", some "collect", session.slots, some nowMs⟩ ∧
    (runPlannerA userId (.ok (some plan)) session nowMs w).world.pets = w.pets ∧
    (runPlannerA userId (.ok (some plan)) session nowMs w).world.vaccines = w.vaccines ∧
    (runPlannerA userId (.ok (some plan)) session nowMs w).world.reminders = w.reminders := by
  have hcond : (jsTruthy plan.followup_question &&
      (match plan.actions with
       | [] => true
       | a :: _ => a.action == some "noop")) = true := by
    rcases hnoop with h | ⟨a, rest, h, ha⟩
    · rw [h, hfq]; rfl
    · rw [h, hfq]; simp [ha]
  simp only [runPlannerA]
  rw [if_pos hcond]
  simp only [saveSessionA]
  simp

/-- Witness for `planner_followup_noop_defers` at a plan with a question and
no actions, over a session already holding a pet name. -/
theorem planner_followup_noop_defers_witness :
    jsTruthy c3aPlan.followup_question = true ∧
    (c3aPlan.actions = [] ∨
      ∃ a rest, c3aPlan.actions = a :: rest ∧ a.action = some "noop") ∧
    ((runPlannerA "U1" (.ok (some c3aPlan)) c3aSession 9 emptyWorldA).reply
        = jsOrS c3aPlan.reply_hint (jsOrS c3aPlan.followup_question "") ∧
      (runPlannerA "U1" (.ok (some c3aPlan)) c3aSession 9 emptyWorldA).world.sessions "U1"
        = some ⟨some "followup", some "collect", c3aSession.slots, some 9⟩ ∧
      (runPlannerA "U1" (.ok (some c3aPlan)) c3aSession 9 emptyWorldA).world.pets
        = emptyWorldA.pets ∧
      (runPlannerA "U1" (.ok (some c3aPlan)) c3aSession 9 emptyWorldA).world.vaccines
        = emptyWorldA.vaccines ∧
      (runPlannerA "U1" (.ok (some c3aPlan)) c3aSession 9 emptyWorldA).world.reminders
        = emptyWorldA.reminders) :=
  ⟨by decide, Or.inl rfl,
    planner_followup_noop_defers "U1" c3aPlan c3aSession 9 emptyWorldA (by decide) (Or.inl rfl)⟩

/-- **C4** counterexample. The hybrid planner's `add_pet` handler issues an
unconditional `db.collection('pets').add(...)` with no find-or-create check:
executing the same complete `add_pet` action twice with identical params
(name "โมจิ") from an empty store leaves **two** Pet records for the
`(owner, name)` pair, contradicting the claim at this concrete input. -/
theorem add_pet_replay_duplicates_cex :
    (petsNamed c4World1 "U1" "โมจิ").length = 1 ∧
    (petsNamed c4World2 "U1" "โมจิ").length = 2 := by
  decide

/-- **C4** as amended. Replaying the same `add_pet` action through the
`noonnon-2.0.0` executor `addOrUpdatePet` is idempotent: starting from a
store with no pet of that `(owner, name)` pair, the first execution creates
exactly one matching record and the second finds and merges into it — the
pair's records are exactly one document, carrying the later execution's
fields merged over the original `created_at`, never a second record. (The
hybrid planner's `add_pet` path instead appends unconditionally, creating a
duplicate on replay.) -/
theorem addOrUpdatePet_replay_idempotent
    (now1 now2 : Int) (id1 id2 : Nat) (userId : String) (payload : PetPayload) (nm : String)
    (pets : List (Nat × PetDocB))
    (hnm : payload.name = some nm) (hne : nm ≠ "")
    (hfresh : ∀ q ∈ pets, q.1 ≠ id1)
    (h0 : petsNamedB pets userId nm = []) :
    ∃ pets1 pets2,
      addOrUpdatePet now1 id1 userId payload pets = .ok pets1 ∧
      addOrUpdatePet now2 id2 userId payload pets1 = .ok pets2 ∧
      petsNamedB pets1 userId nm
        = [(id1, { petBaseB now1 userId payload nm with created_at := some now1 })] ∧
      petsNamedB pets2 userId nm
        = [(id1, { petBaseB now2 userId payload nm with created_at := some now1 })] := by
  have hb : jsTruthy payload.name = true := by
    rw [hnm]; simp [jsTruthy, hne]
  have hgd : (payload.name).getD "" = nm := by rw [hnm]; rfl
  have hall : ∀ x ∈ pets, ¬ petMatchB userId nm x = true := by
    intro x hx
    exact List.filter_eq_nil_iff.mp h0 x hx
  have hnone : pets.find? (petMatchB userId nm) = none := List.find?_eq_none.mpr hall
  have hfilter : List.filter (petMatchB userId nm) pets = [] := h0
  have hmatch1 : petMatchB userId nm
      (id1, { petBaseB now1 userId payload nm with created_at := some now1 }) = true := by
    simp [petMatchB, petBaseB]
  have hmatch2 : petMatchB userId nm
      (id1, { petBaseB now2 userId payload nm with created_at := some now1 }) = true := by
    simp [petMatchB, petBaseB]
  refine ⟨pets ++ [(id1, { petBaseB now1 userId payload nm with created_at := some now1 })],
    (pets ++ [(id1, { petBaseB now1 userId payload nm with created_at := some now1 })]).map
      (fun r : Nat × PetDocB => if r.1 = id1 then
        (r.1, { petBaseB now2 userId payload nm with created_at := r.2.created_at }) else r),
    ?_, ?_, ?_, ?_⟩
  · unfold addOrUpdatePet
    rw [hb, if_pos rfl, hgd, hnone]
  · unfold addOrUpdatePet
    rw [hb, if_pos rfl, hgd, List.find?_append, hnone]
    simp only [Option.none_or, List.find?_cons, hmatch1]
  · unfold petsNamedB
    rw [List.filter_append, hfilter]
    simp [hmatch1]
  · unfold petsNamedB
    rw [List.map_append]
    have hmap : pets.map (fun r => if r.1 = id1 then
        (r.1, { petBaseB now2 userId payload nm with created_at := r.2.created_at }) else r)
        = pets := by
      rw [List.map_congr_left (g := id) ?hg, List.map_id]
      case hg =>
        intro a ha
        simp [hfresh a ha]
    rw [hmap, List.filter_append, hfilter]
    simp [hmatch2]

/-- Witness for `addOrUpdatePet_replay_idempotent` at a concrete replay of
`add_pet` for "โมจิ" over the empty store. -/
theorem addOrUpdatePet_replay_idempotent_witness :
    c4Payload.name = some "โมจิ" ∧ ("โมจิ" : String) ≠ "" ∧
    (∀ q ∈ ([] : List (Nat × PetDocB)), q.1 ≠ 5) ∧
    petsNamedB [] "U1" "โมจิ" = [] ∧
    (∃ pets1 pets2,
      addOrUpdatePet 1 5 "U1" c4Payload [] = .ok pets1 ∧
      addOrUpdatePet 2 6 "U1" c4Payload pets1 = .ok pets2 ∧
      petsNamedB pets1 "U1" "โมจิ"
        = [(5, { petBaseB 1 "U1" c4Payload "โมจิ" with created_at := some 1 })] ∧
      petsNamedB pets2 "U1" "โมจิ"
        = [(5, { petBaseB 2 "U1" c4Payload "โมจิ" with created_at := some 1 })]) :=
  ⟨rfl, by decide, by simp, rfl,
    addOrUpdatePet_replay_idempotent 1 2 5 6 "U1" c4Payload "โมจิ" [] rfl (by decide)
      (by simp) rfl⟩

/-- `lexLe` is reflexive. -/
theorem lexLe_refl (a : List Char) : lexLe a a = true := by
  induction a with
  | nil => rfl
  | cons x xs ih => simp [lexLe, ih]

/-- `lexLe` is total. -/
theorem lexLe_total (a b : List Char) : lexLe a b = true ∨ lexLe b a = true := by
  induction a generalizing b with
  | nil => left; rfl
  | cons x xs ih =>
    cases b with
    | nil => right; rfl
    | cons y ys =>
      by_cases hxy : x = y
      · subst hxy
        simp only [lexLe, if_pos rfl]
        exact ih ys
      · rcases lt_or_gt_of_ne hxy with hlt | hgt
        · left
          simp only [lexLe, if_neg hxy]
          exact decide_eq_true hlt
        · right
          simp only [lexLe, if_neg (Ne.symm hxy)]
          exact decide_eq_true hgt

/-- `lexLe` is transitive. -/
theorem lexLe_trans (a b c : List Char) (h1 : lexLe a b = true) (h2 : lexLe b c = true) :
    lexLe a c = true := by
  induction a generalizing b c with
  | nil => rfl
  | cons x xs ih =>
    cases b with
    | nil => simp [lexLe] at h1
    | cons y ys =>
      cases c with
      | nil => simp [lexLe] at h2
      | cons z zs =>
        simp only [lexLe] at h1 h2 ⊢
        by_cases hxy : x = y
        · subst hxy
          rw [if_pos rfl] at h1
          by_cases hyz : x = z
          · subst hyz
            rw [if_pos rfl] at h2 ⊢
            exact ih ys zs h1 h2
          · rw [if_neg hyz] at h2 ⊢
            exact h2
        · rw [if_neg hxy] at h1
          have hlt1 : x < y := of_decide_eq_true h1
          by_cases hyz : y = z
          · subst hyz
            rw [if_neg hxy]
            exact h1
          · rw [if_neg hyz] at h2
            have hlt2 : y < z := of_decide_eq_true h2
            have hxz : x < z := lt_trans hlt1 hlt2
            rw [if_neg (ne_of_lt hxz)]
            exact decide_eq_true hxz

/-- In a list that is pairwise related by a reflexive relation, every element
relates to the last element. -/
theorem pairwise_rel_getLast {α : Type} (r : α → α → Prop) (hrefl : ∀ a, r a a) :
    ∀ (l : List α) (h : l ≠ []), l.Pairwise r → ∀ x ∈ l, r x (l.getLast h) := by
  intro l
  induction l with
  | nil => intro h; exact absurd rfl h
  | cons a t ih =>
    intro h hp x hx
    cases t with
    | nil =>
      have hxa : x = a := by simpa using hx
      subst hxa
      exact hrefl x
    | cons b t2 =>
      have hne : (b :: t2) ≠ [] := by simp
      rw [List.getLast_cons hne]
      rcases List.mem_cons.mp hx with hxa | hx2
      · subst hxa
        exact (List.pairwise_cons.mp hp).1 _ (List.getLast_mem hne)
      · exact ih hne (List.pairwise_cons.mp hp).2 x hx2

/-- **C8** counterexample. With pets "Zed" (updated at 100) and "Alpha"
(updated at 200) on file, no explicit name and nothing mentioned in the
session, the `noonnon-2.0.0` resolution (`pet_name || getLastPetName`) picks
"Zed" — the last document of `orderBy('name')` — while the priority the claim
states (explicit → session → most-recently-updated) picks "Alpha"; the
session is never consulted at all. -/
theorem pet_resolution_order_cex :
    resolvePetB none c8Pets "U1" = some "Zed" ∧
    resolvePetClaimed none none c8Pets "U1" = some "Alpha" ∧
    resolvePetB none c8Pets "U1" ≠ resolvePetClaimed none none c8Pets "U1" := by
  refine ⟨by decide, by decide, by decide⟩

/-- **C8** as amended. An `add_vaccine` (or list) pet reference is resolved
to the explicit truthy `pet_name` when one is given; otherwise to the name
that sorts **last in ascending name order** among the owner's pets on file —
a maximal name, not the most recently updated pet, and without consulting
the session. -/
theorem resolvePet_explicit_else_last_in_name_order
    (explicit : Option String) (pets : List (Nat × PetDocB)) (userId : String) :
    (jsTruthy explicit = true → resolvePetB explicit pets userId = explicit) ∧
    ((pets.filter fun p => p.2.owner_user_id == userId) ≠ [] →
      (∀ q ∈ pets.filter fun p => p.2.owner_user_id == userId, q.2.name ≠ "") →
      jsTruthy explicit = false →
      ∃ nm, resolvePetB explicit pets userId = some nm ∧
        (∃ q ∈ pets.filter fun p => p.2.owner_user_id == userId, q.2.name = nm) ∧
        ∀ q ∈ pets.filter fun p => p.2.owner_user_id == userId,
          strLe q.2.name nm = true) := by
  constructor
  · intro ht
    unfold resolvePetB
    rw [ht]
    rfl
  · intro hne hnames hf
    unfold resolvePetB
    rw [hf]
    simp only [Bool.false_eq_true, if_false]
    unfold getLastPetName
    have hperm := List.perm_insertionSort
      (fun a b : Nat × PetDocB => strLe a.2.name b.2.name = true)
      (pets.filter fun p => p.2.owner_user_id == userId)
    have hsne : (pets.filter fun p => p.2.owner_user_id == userId).insertionSort
        (fun a b => strLe a.2.name b.2.name = true) ≠ [] := by
      intro hnil
      apply hne
      have hl := hperm.length_eq
      rw [hnil] at hl
      exact List.eq_nil_of_length_eq_zero hl.symm
    have hsorted := @List.sorted_insertionSort (Nat × PetDocB)
      (fun a b => strLe a.2.name b.2.name = true) (fun a b => instDecidableEqBool _ _)
      ⟨fun a b => lexLe_total a.2.name.data b.2.name.data⟩
      ⟨fun a b c h1 h2 => lexLe_trans a.2.name.data b.2.name.data c.2.name.data h1 h2⟩
      (pets.filter fun p => p.2.owner_user_id == userId)
    have hmax := pairwise_rel_getLast
      (fun a b : Nat × PetDocB => strLe a.2.name b.2.name = true)
      (fun a => lexLe_refl a.2.name.data) _ hsne hsorted
    have hmem : ((pets.filter fun p => p.2.owner_user_id == userId).insertionSort
        (fun a b => strLe a.2.name b.2.name = true)).getLast hsne
        ∈ pets.filter fun p => p.2.owner_user_id == userId := by
      rw [← hperm.mem_iff]
      exact List.getLast_mem hsne
    have hnmne := hnames _ hmem
    rw [List.getLast?_eq_getLast _ hsne]
    refine ⟨_, ?_, ⟨_, hmem, rfl⟩, ?_⟩
    · simp only [if_neg hnmne]
    · intro q hq
      exact hmax q (hperm.mem_iff.mpr hq)

/-- Witness for `resolvePet_explicit_else_last_in_name_order`: explicit names
win, and with no explicit name the owner of `c8Pets` resolves to a maximal
name among the pets on file. -/
theorem resolvePet_explicit_else_last_in_name_order_witness :
    resolvePetB (some "โบม") c8Pets "U1" = some "โบม" ∧
    (∃ nm, resolvePetB none c8Pets "U1" = some nm ∧
      (∃ q ∈ c8Pets.filter fun p => p.2.owner_user_id == "U1", q.2.name = nm) ∧
      ∀ q ∈ c8Pets.filter fun p => p.2.owner_user_id == "U1",
        strLe q.2.name nm = true) :=
  ⟨(resolvePet_explicit_else_last_in_name_order (some "โบม") c8Pets "U1").1 (by decide),
    (resolvePet_explicit_else_last_in_name_order none c8Pets "U1").2
      (by decide) (by decide) (by decide)⟩

/-- **C9** counterexample. The `list_vaccine` query has no `orderBy`: with two
records for the same pet stored with next-due dates 2027-01-10 then
2026-01-10, the reply lists them in store order — not ascending by due date —
contradicting the claimed deterministic ascending order at this concrete
input. -/
theorem list_vaccine_not_sorted_cex :
    listVaccineB c9Vaccines "U1" "โมจิ" = .items
      ["• Rabies  ล่าสุด: 2026-01-10  นัด: 2027-01-10",
       "• Parvo  ล่าสุด: 2025-01-10  นัด: 2026-01-10"] ∧
    listVaccineDues c9Vaccines "U1" "โมจิ" = ["2027-01-10", "2026-01-10"] ∧
    ¬ List.Pairwise (fun a b => strLe a b = true)
      (listVaccineDues c9Vaccines "U1" "โมจิ") := by
  refine ⟨by decide, by decide, by decide⟩

/-- **C9** as amended. Both list handlers reply with the explicit none-found
message exactly when no matching record exists, and otherwise with one
formatted line per returned record (in store order for `list_vaccine`;
descending `created_at`, limited to 10, for `list_treatments`) — never an
empty silent success. -/
theorem list_queries_none_found_never_silent
    (vaccines : List VaccineDocB) (treatments : List TreatmentDoc) (userId pet : String) :
    (listVaccineB vaccines userId pet = .noneFound pet ↔
      vaccines.filter (fun v => v.owner_user_id == userId && v.pet_name == pet) = []) ∧
    (∀ ls, listVaccineB vaccines userId pet = .items ls →
      ls ≠ [] ∧ ls.length =
        (vaccines.filter fun v => v.owner_user_id == userId && v.pet_name == pet).length) ∧
    (listTreatmentsB treatments userId pet = .noneFound pet ↔
      treatments.filter (fun v => v.owner_user_id == userId && v.pet_name == pet) = []) ∧
    (∀ ls, listTreatmentsB treatments userId pet = .items ls → ls ≠ []) := by
  have hkey : (((treatments.filter fun v =>
        v.owner_user_id == userId && v.pet_name == pet).insertionSort
        (fun a b => b.created_at <= a.created_at)).take 10 = []) ↔
      (treatments.filter fun v => v.owner_user_id == userId && v.pet_name == pet) = [] := by
    rw [List.take_eq_nil_iff]
    constructor
    · rintro (h10 | hnil)
      · exact absurd h10 (by decide)
      · have hl := (List.perm_insertionSort
          (fun a b : TreatmentDoc => b.created_at <= a.created_at)
          (treatments.filter fun v => v.owner_user_id == userId && v.pet_name == pet)).length_eq
        rw [hnil] at hl
        exact List.eq_nil_of_length_eq_zero hl.symm
    · intro h
      right
      rw [h]
      rfl
  refine ⟨?_, ?_, ?_, ?_⟩
  · unfold listVaccineB
    by_cases h : (vaccines.filter fun v => v.owner_user_id == userId && v.pet_name == pet) = []
    · simp [List.isEmpty_iff, h]
    · simp [List.isEmpty_iff, h]
  · intro ls hls
    unfold listVaccineB at hls
    by_cases h : (vaccines.filter fun v => v.owner_user_id == userId && v.pet_name == pet) = []
    · simp [List.isEmpty_iff, h] at hls
    · simp only [List.isEmpty_iff, h, if_false] at hls
      injection hls with hls'
      subst hls'
      constructor
      · simp [h]
      · simp
  · unfold listTreatmentsB
    by_cases h : (treatments.filter fun v => v.owner_user_id == userId && v.pet_name == pet) = []
    · simp [List.isEmpty_iff, hkey, h]
    · simp [List.isEmpty_iff, hkey, h]
  · intro ls hls
    unfold listTreatmentsB at hls
    by_cases h : (((treatments.filter fun v =>
        v.owner_user_id == userId && v.pet_name == pet).insertionSort
        (fun a b => b.created_at <= a.created_at)).take 10) = []
    · simp [List.isEmpty_iff, h] at hls
    · rw [if_neg (by simpa [List.isEmpty_iff] using h)] at hls
      injection hls with hls'
      subst hls'
      simp only [ne_eq, List.map_eq_nil_iff]
      exact h

/-- Witness for `list_queries_none_found_never_silent` at the concrete
`c9Vaccines` store (two matching records) and an empty treatments store. -/
theorem list_queries_none_found_never_silent_witness :
    (listVaccineB c9Vaccines "U1" "โมจิ" = .noneFound "โมจิ" ↔
      c9Vaccines.filter (fun v => v.owner_user_id == "U1" && v.pet_name == "โมจิ") = []) ∧
    (∀ ls, listVaccineB c9Vaccines "U1" "โมจิ" = .items ls →
      ls ≠ [] ∧ ls.length =
        (c9Vaccines.filter fun v => v.owner_user_id == "U1" && v.pet_name == "โมจิ").length) ∧
    (listTreatmentsB [] "U1" "โมจิ" = .noneFound "โมจิ" ↔
      (([] : List TreatmentDoc).filter
        fun v => v.owner_user_id == "U1" && v.pet_name == "โมจิ") = []) ∧
    (∀ ls, listTreatmentsB [] "U1" "โมจิ" = .items ls → ls ≠ []) :=
  list_queries_none_found_never_silent c9Vaccines [] "U1" "โมจิ"

/-- **C7** counterexample. The hybrid variant's adapter does **not** collapse
service errors to `null`: on a non-ok HTTP response `geminiCall` throws
`new Error('Gemini HTTP ...')` past the adapter boundary (its callers
`runPlanner` and `routeIntent` catch it), contradicting the claim's
"returns null, never throws" on this concrete input. -/
theorem gemini_call_throws_on_http_error_cex :
    geminiCallA noJson (.httpError 500) = .error (.http 500) ∧
    ∀ r, geminiCallA noJson (.httpError 500) = .ok r → False := by
  constructor
  · rfl
  · intro r h
    cases h

/-- **C7** as amended. On model output that is not valid JSON the hybrid
adapter's `extractJSON` returns `null` exactly when all three attempts fail —
the fenced-block capture, the whole trimmed text, and the brace-delimited
substring — and never throws; on a service error or timeout the hybrid
`geminiCall` throws (its callers catch), while the `noonnon-2.0.0` variant's
adapter returns `null`, as it also does on empty output. -/
theorem adapter_null_iff_all_stages_fail {Json : Type} (parse : String → Option Json)
    (s : String) (hs : s ≠ "") :
    (extractJSON parse (some s) = none ↔ stagesAllFail parse s) ∧
    (∀ st, geminiCallA parse (ServiceOutcome.httpError st) = .error (.http st)) ∧
    (∀ st, geminiNLU_B parse (ServiceOutcome.httpError st) = none) ∧
    geminiNLU_B parse (ServiceOutcome.ok "") = none := by
  have lem1 : ∀ cs : List Char, fenceParse parse cs = none ↔
      ∀ inner, fenceInner cs = some inner → parse (String.mk inner) = none := by
    intro cs
    unfold fenceParse
    cases h : fenceInner cs with
    | none => simp
    | some inner => simp
  have lem3 : ∀ cs : List Char, braceParse parse cs = none ↔
      ∀ sub, braceSlice cs = some sub → parse (String.mk sub) = none := by
    intro cs
    unfold braceParse
    cases h : braceSlice cs with
    | none => simp
    | some sub => simp
  refine ⟨?_, fun st => rfl, fun st => rfl, rfl⟩
  simp only [extractJSON, stagesAllFail]
  rw [if_neg hs]
  constructor
  · intro h
    cases hf1 : fenceParse parse (jsTrim s).data with
    | some j => rw [hf1] at h; simp at h
    | none =>
      rw [hf1] at h
      cases hp : parse (jsTrim s) with
      | some j => rw [hp] at h; simp at h
      | none =>
        rw [hp] at h
        refine ⟨(lem1 _).mp hf1, rfl, (lem3 _).mp ?_⟩
        simpa using h
  · rintro ⟨h1, h2, h3⟩
    rw [(lem1 ((jsTrim s).data)).mpr h1]
    simp only [h2, (lem3 ((jsTrim s).data)).mpr h3]

/-- Witness for `adapter_null_iff_all_stages_fail` at the text "hello" (no
fence, no braces, rejected by the parser) with the all-rejecting parser. -/
theorem adapter_null_iff_all_stages_fail_witness :
    ("hello" : String) ≠ "" ∧
    ((extractJSON noJson (some "hello") = none ↔ stagesAllFail noJson "hello") ∧
      (∀ st, geminiCallA noJson (ServiceOutcome.httpError st) = .error (.http st)) ∧
      (∀ st, geminiNLU_B noJson (ServiceOutcome.httpError st) = none) ∧
      geminiNLU_B noJson (ServiceOutcome.ok "") = none) :=
  ⟨by decide, adapter_null_iff_all_stages_fail noJson "hello" (by decide)⟩
